import Mathlib

/-!
Verification development for the chatbot-api predicate-composition and
sequential tool-execution core.

The Python source under app/ is shallowly embedded: pure functions become
Lean functions, SQLAlchemy predicate expressions become an inductive
syntax tree, the sequential executor becomes a recursive function that
threads an explicit transaction state, and the exception behaviour of the
Python code is modelled with Except.
-/

set_option autoImplicit false

namespace ChatbotApi

/-! ## Calendar dates and times

Model of Python datetime.date produced by
datetime.datetime.strptime(s, "%Y-%m-%d").date() and of datetime.time as
used by the formatters (only hour and minute are rendered).
-/

structure Date where
  year : Nat
  month : Nat
  day : Nat
deriving DecidableEq, Repr

structure Time where
  hour : Nat
  minute : Nat
deriving DecidableEq, Repr

def isLeapYear (y : Nat) : Bool :=
  (y % 4 == 0 && y % 100 != 0) || y % 400 == 0

def daysInMonth (y m : Nat) : Nat :=
  if m == 1 then 31
  else if m == 2 then (if isLeapYear y then 29 else 28)
  else if m == 3 then 31
  else if m == 4 then 30
  else if m == 5 then 31
  else if m == 6 then 30
  else if m == 7 then 31
  else if m == 8 then 31
  else if m == 9 then 30
  else if m == 10 then 31
  else if m == 11 then 30
  else if m == 12 then 31
  else 0

def isAsciiDigit (c : Char) : Bool :=
  48 ≤ c.toNat && c.toNat ≤ 57

def digitsToNat (cs : List Char) : Nat :=
  cs.foldl (fun n c => n * 10 + (c.toNat - 48)) 0

/-- Split a character list at every occurrence of the separator character,
keeping empty fields, as Python str.split(sep) does. -/
def splitOnChar (sep : Char) : List Char → List (List Char)
  | [] => [[]]
  | c :: rest =>
    let r := splitOnChar sep rest
    if c == sep then
      [] :: r
    else
      match r with
      | [] => [[c]]
      | w :: ws => (c :: w) :: ws

/-- Model of datetime.datetime.strptime(s, "%Y-%m-%d").date(): the year is
exactly four digits, month and day are one or two digits, the whole string
must be consumed, and the datetime constructor validates the calendar
(month 1..12, day within the month, year at least 1). Returns none exactly
when strptime raises ValueError. -/
def parseISODate (s : String) : Option Date :=
  match splitOnChar (Char.ofNat 45) s.data with
  | [ys, ms, ds] =>
    if ys.length == 4 && ys.all isAsciiDigit
        && (ms.length == 1 || ms.length == 2) && ms.all isAsciiDigit
        && (ds.length == 1 || ds.length == 2) && ds.all isAsciiDigit then
      let y := digitsToNat ys
      let m := digitsToNat ms
      let d := digitsToNat ds
      if 1 ≤ y && 1 ≤ m && m ≤ 12 && 1 ≤ d && d ≤ daysInMonth y m then
        some ⟨y, m, d⟩
      else
        none
    else
      none
  | _ => none

/-- Model of datetime.datetime.strptime(s, "%H:%M:%S") used only for
validation by the hospital-shift time filter: hour and minute and second
are one or two digits within range, full string consumed. -/
def isValidTimeHMS (s : String) : Bool :=
  match splitOnChar (Char.ofNat 58) s.data with
  | [hs, ms, ss] =>
    (hs.length == 1 || hs.length == 2) && hs.all isAsciiDigit
      && (ms.length == 1 || ms.length == 2) && ms.all isAsciiDigit
      && (ss.length == 1 || ss.length == 2) && ss.all isAsciiDigit
      && digitsToNat hs ≤ 23 && digitsToNat ms ≤ 59 && digitsToNat ss ≤ 59
  | _ => false

/-! ## Column references and predicate expressions

Shallow embedding of the SQLAlchemy column expressions and boolean
predicate trees produced by the statement builders.
-/

inductive Col where
  | outageDate | outageType | outageStart
  | screeningDate | screeningTime
  | movieName | movieNormName | movieNormNameGreek | movieNormNameEnglish
  | movieGenre | movieNormGenre | movieYear
  | cinemaName | hallName
  | hospitalShiftDate | hospitalName | hospitalNormName
  | hospitalShiftStartTime | hospitalShiftEndTime
  | performanceDate | performanceName | performanceNormName
  | performanceNormLocation | performanceType
deriving DecidableEq, Repr

inductive SortDir where
  | asc | desc
deriving DecidableEq, Repr

inductive Pred where
  /-- sqlalchemy.false(): a predicate that matches no row. -/
  | falseP : Pred
  /-- column.in_(dates) -/
  | inDates (col : Col) (dates : List Date) : Pred
  /-- column == value (string equality) -/
  | eqStr (col : Col) (v : String) : Pred
  /-- column == value (integer equality, Movie.year) -/
  | eqInt (col : Col) (v : Int) : Pred
  /-- func.similarity(column, term) > threshold -/
  | similarityGt (col : Col) (term : String) (threshold : Rat) : Pred
  /-- column.op("~*")(pattern): case-insensitive regex match -/
  | regexIMatch (col : Col) (pattern : String) : Pred
  /-- column.ilike(pattern) -/
  | ilike (col : Col) (pattern : String) : Pred
  /-- column >= value (string comparison) -/
  | geStr (col : Col) (v : String) : Pred
  /-- column <= value (string comparison) -/
  | leStr (col : Col) (v : String) : Pred
  /-- and_(*preds) -/
  | andP (ps : List Pred) : Pred
  /-- or_(*preds) -/
  | orP (ps : List Pred) : Pred

/-- Semantics of the date-filter predicates on a row whose date column holds
the given value: false() matches no row, an IN predicate matches exactly the
rows whose date is in the list. The date filters only ever produce these two
shapes; other predicate forms do not occur in a date filter and evaluate to
false here. -/
def evalDatePred (p : Pred) (d : Date) : Bool :=
  match p with
  | .falseP => false
  | .inDates _ ds => decide (d ∈ ds)
  | _ => false

/-! ## Date-list filter builders

All four Python builders (outages, screenings, hospital shifts,
performances) share the same loop: skip wildcard and empty entries, try to
parse the rest as ISO dates, collect the valid ones and remember whether
any entry was attempted.
-/

/-- Python test date_str == "*" or not date_str used by all date loops. -/
def isSentinel (s : String) : Bool :=
  s == "*" || s == ""

/-- The loop body shared by the four date filters: returns the list of
parsed dates in input order and whether at least one non-sentinel entry was
attempted. Invalid entries are logged and skipped in the source. -/
def collectDates : List String → List Date × Bool
  | [] => ([], false)
  | s :: rest =>
    let r := collectDates rest
    if isSentinel s then
      r
    else
      match parseISODate s with
      | some d => (d :: r.1, true)
      | none => (r.1, true)

/-- Common shape of the four date-list filter builders, parameterised by
the date column of the entity. -/
def dateFilterCore (col : Col) (dates : List String) : Option Pred :=
  if dates = ["*"] then none
  else
    let r := collectDates dates
    if !r.1.isEmpty then some (.inDates col r.1)
    else if r.2 then some .falseP
    else none

/-- app/tools/statement_builders/outages_statement_builder.py -/
def _build_outage_date_filter (outage_dates : List String) : Option Pred :=
  if outage_dates = ["*"] then none
  else
    let r := collectDates outage_dates
    if !r.1.isEmpty then some (.inDates .outageDate r.1)
    else if r.2 then some .falseP
    else none

/-- app/tools/statement_builders/movies_statement_builder.py -/
def _build_screening_date_filter (screening_dates : List String) : Option Pred :=
  if screening_dates = ["*"] then none
  else
    let r := collectDates screening_dates
    if !r.1.isEmpty then some (.inDates .screeningDate r.1)
    else if r.2 then some .falseP
    else none

/-- app/tools/statement_builders/hospital_shifts_statement_builder.py -/
def _build_hospital_shift_date_filter (hospital_shift_dates : List String) : Option Pred :=
  if hospital_shift_dates = ["*"] then none
  else
    let r := collectDates hospital_shift_dates
    if !r.1.isEmpty then some (.inDates .hospitalShiftDate r.1)
    else if r.2 then some .falseP
    else none

/-- app/tools/statement_builders/performances_statement_builder.py -/
def _build_performance_date_filter (performance_dates : List String) : Option Pred :=
  if performance_dates = ["*"] then none
  else
    let r := collectDates performance_dates
    if !r.1.isEmpty then some (.inDates .performanceDate r.1)
    else if r.2 then some .falseP
    else none

/-- The entries of a date list that the loop actually attempts to parse. -/
def attemptedEntries (dates : List String) : List String :=
  dates.filter (fun s => !(isSentinel s))

/-- The dates that parse successfully, in input order. -/
def parsedDates (dates : List String) : List Date :=
  dates.filterMap (fun s => if isSentinel s then none else parseISODate s)

theorem collectDates_fst (l : List String) : (collectDates l).1 = parsedDates l := by
  induction l with
  | nil => rfl
  | cons s rest ih =>
    simp only [collectDates, parsedDates, List.filterMap_cons]
    by_cases h : isSentinel s = true
    · simp [h, ih, parsedDates]
    · simp only [Bool.not_eq_true] at h
      cases hp : parseISODate s <;> simp [h, hp, ih, parsedDates]

theorem collectDates_snd (l : List String) :
    (collectDates l).2 = !(attemptedEntries l).isEmpty := by
  induction l with
  | nil => rfl
  | cons s rest ih =>
    simp only [collectDates, attemptedEntries, List.filter_cons]
    by_cases h : isSentinel s = true
    · simp [h, ih, attemptedEntries]
    · simp only [Bool.not_eq_true] at h
      cases hp : parseISODate s <;> simp [h, hp]

/-! ## Text normalizer (app/utils/normalize_text.py)

The Unicode machinery (NFC, str.lower, NFD, combining-mark categories) is
modelled over the repertoire the normalizer targets: ASCII plus monotonic
Greek with the acute and diaeresis combining marks. Characters outside the
tables are treated as inert (no decomposition, no case mapping), which
matches Python on that repertoire.
-/

/-- Case mapping of str.lower for ASCII and Greek. -/
def lowerPairs : List (Char × Char) :=
  [('A', 'a'), ('B', 'b'), ('C', 'c'), ('D', 'd'), ('E', 'e'), ('F', 'f'),
   ('G', 'g'), ('H', 'h'), ('I', 'i'), ('J', 'j'), ('K', 'k'), ('L', 'l'),
   ('M', 'm'), ('N', 'n'), ('O', 'o'), ('P', 'p'), ('Q', 'q'), ('R', 'r'),
   ('S', 's'), ('T', 't'), ('U', 'u'), ('V', 'v'), ('W', 'w'), ('X', 'x'),
   ('Y', 'y'), ('Z', 'z'),
   ('Α', 'α'), ('Β', 'β'), ('Γ', 'γ'), ('Δ', 'δ'), ('Ε', 'ε'), ('Ζ', 'ζ'),
   ('Η', 'η'), ('Θ', 'θ'), ('Ι', 'ι'), ('Κ', 'κ'), ('Λ', 'λ'), ('Μ', 'μ'),
   ('Ν', 'ν'), ('Ξ', 'ξ'), ('Ο', 'ο'), ('Π', 'π'), ('Ρ', 'ρ'), ('Σ', 'σ'),
   ('Τ', 'τ'), ('Υ', 'υ'), ('Φ', 'φ'), ('Χ', 'χ'), ('Ψ', 'ψ'), ('Ω', 'ω'),
   ('Ά', 'ά'), ('Έ', 'έ'), ('Ή', 'ή'), ('Ί', 'ί'), ('Ό', 'ό'), ('Ύ', 'ύ'),
   ('Ώ', 'ώ'), ('Ϊ', 'ϊ'), ('Ϋ', 'ϋ')]

def pyLowerChar (c : Char) : Char :=
  match lowerPairs.find? (fun p => p.1 == c) with
  | some p => p.2
  | none => c

/-- Canonical decompositions (NFD) of the precomposed Greek letters in the
repertoire; everything else decomposes to itself. -/
def nfdPairs : List (Char × List Char) :=
  [('ά', ['α', '́']), ('έ', ['ε', '́']), ('ή', ['η', '́']),
   ('ί', ['ι', '́']), ('ό', ['ο', '́']), ('ύ', ['υ', '́']),
   ('ώ', ['ω', '́']),
   ('ϊ', ['ι', '̈']), ('ϋ', ['υ', '̈']),
   ('ΐ', ['ι', '̈', '́']), ('ΰ', ['υ', '̈', '́']),
   ('Ά', ['Α', '́']), ('Έ', ['Ε', '́']), ('Ή', ['Η', '́']),
   ('Ί', ['Ι', '́']), ('Ό', ['Ο', '́']), ('Ύ', ['Υ', '́']),
   ('Ώ', ['Ω', '́']), ('Ϊ', ['Ι', '̈']), ('Ϋ', ['Υ', '̈'])]

def nfdChar (c : Char) : List Char :=
  match nfdPairs.find? (fun p => p.1 == c) with
  | some p => p.2
  | none => [c]

/-- Canonical compositions (NFC) over the repertoire: a base (or partially
composed) character followed by a combining mark composes to the
precomposed character. -/
def composePairs : List ((Char × Char) × Char) :=
  [(('α', '́'), 'ά'), (('ε', '́'), 'έ'), (('η', '́'), 'ή'),
   (('ι', '́'), 'ί'), (('ο', '́'), 'ό'), (('υ', '́'), 'ύ'),
   (('ω', '́'), 'ώ'),
   (('ι', '̈'), 'ϊ'), (('υ', '̈'), 'ϋ'),
   (('ϊ', '́'), 'ΐ'), (('ϋ', '́'), 'ΰ'),
   (('Α', '́'), 'Ά'), (('Ε', '́'), 'Έ'), (('Η', '́'), 'Ή'),
   (('Ι', '́'), 'Ί'), (('Ο', '́'), 'Ό'), (('Υ', '́'), 'Ύ'),
   (('Ω', '́'), 'Ώ'), (('Ι', '̈'), 'Ϊ'), (('Υ', '̈'), 'Ϋ')]

def composePair (a b : Char) : Option Char :=
  match composePairs.find? (fun p => p.1.1 == a && p.1.2 == b) with
  | some p => some p.2
  | none => none

/-- Unicode category Mn (nonspacing combining marks) over the repertoire. -/
def isMn (c : Char) : Bool :=
  c.toNat == 768 || c.toNat == 769 || c.toNat == 776
    || c.toNat == 834 || c.toNat == 837

/-- string.punctuation plus the Greek question mark (U+037E) and the Greek
ano teleia (U+0387), the exact set removed by normalize_text. -/
def isPunct (c : Char) : Bool :=
  let n := c.toNat
  (33 ≤ n && n ≤ 47) || (58 ≤ n && n ≤ 64) || (91 ≤ n && n ≤ 96)
    || (123 ≤ n && n ≤ 126) || n == 894 || n == 903

/-- Whitespace as recognised by str.strip and the regex class backslash-s. -/
def isSpace (c : Char) : Bool :=
  let n := c.toNat
  n == 32 || (9 ≤ n && n ≤ 13) || (28 ≤ n && n ≤ 31) || n == 133 || n == 160
    || n == 5760 || (8192 ≤ n && n ≤ 8202) || n == 8232 || n == 8233
    || n == 8239 || n == 8287 || n == 12288

/-- Step 1 of normalize_text: unicodedata.normalize("NFC", text). -/
def nfcCompose : List Char → List Char
  | [] => []
  | [c] => [c]
  | a :: b :: rest =>
    match composePair a b with
    | some c => nfcCompose (c :: rest)
    | none => a :: nfcCompose (b :: rest)
termination_by cs => cs.length
decreasing_by
  all_goals simp_arith

/-- Steps 5 and 6 helpers: strip leading whitespace. -/
def stripWsLeft : List Char → List Char
  | [] => []
  | c :: rest => if isSpace c then stripWsLeft rest else c :: rest

/-- Strip trailing whitespace. -/
def stripWsRight : List Char → List Char
  | [] => []
  | c :: rest =>
    match stripWsRight rest with
    | [] => if isSpace c then [] else [c]
    | r => c :: r

/-- Python str.strip(): remove whitespace from both ends. -/
def stripWs (cs : List Char) : List Char :=
  stripWsRight (stripWsLeft cs)

/-- re.sub of one-or-more whitespace by a single space: each maximal run of
whitespace characters becomes one space. The flag records whether the
previous character was part of a run already replaced. -/
def collapseWsAux : Bool → List Char → List Char
  | _, [] => []
  | prevSpace, c :: rest =>
    if isSpace c then
      if prevSpace then collapseWsAux true rest
      else ' ' :: collapseWsAux true rest
    else c :: collapseWsAux false rest

def collapseWs (cs : List Char) : List Char :=
  collapseWsAux false cs

/-- Step 4: convert final sigma to medial sigma. -/
def sigmaFix (c : Char) : Char :=
  if c = 'ς' then 'σ' else c

/-- The normalization pipeline of normalize_text on a non-empty string:
NFC, lowercase, NFD with nonspacing marks removed, final-sigma conversion,
punctuation removal, strip, whitespace collapse. -/
def pyNormalize (cs : List Char) : List Char :=
  let s1 := nfcCompose cs
  let s2 := s1.map pyLowerChar
  let s3 := s2.flatMap nfdChar
  let s4 := s3.filter (fun c => !(isMn c))
  let s5 := s4.map sigmaFix
  let s6 := s5.filter (fun c => !(isPunct c))
  collapseWs (stripWs s6)

/-- app/utils/normalize_text.py: None maps to None, the empty string to the
empty string, otherwise the pipeline applies. The defensive try/except
fallback is unreachable in the embedding because every step is total. -/
def normalize_text : Option String → Option String
  | none => none
  | some s => if s = "" then some "" else some (String.mk (pyNormalize s.data))

/-! ## Matching-condition builders
(app/utils/build_fuzzy_conditions.py, app/utils/build_regex_conditions.py)
-/

/-- Default fuzzy-match threshold from app/core/config.py
(settings.FUZZY_THRESHOLD = 0.1). -/
def FUZZY_THRESHOLD : Rat := 1 / 10

/-- The comprehension shared by both condition builders: drop the wildcard
sentinel and empty terms, normalize the rest, and keep only the terms whose
normalization is non-empty. -/
def validTermsNormalized (terms : List String) : List String :=
  terms.filterMap (fun t =>
    if t == "*" || t == "" then none
    else
      match normalize_text (some t) with
      | some n => if n == "" then none else some n
      | none => none)

def build_fuzzy_conditions (column : Col) (terms : List String) (threshold : Rat) :
    List Pred :=
  (validTermsNormalized terms).map (fun n => .similarityGt column n threshold)

/-- Python re.escape (3.7 semantics): only regex metacharacters and
whitespace get a backslash. -/
def isReSpecial (c : Char) : Bool :=
  c.toNat ∈ [40, 41, 91, 93, 123, 125, 63, 42, 43, 45, 124, 94, 36, 92, 46,
             38, 126, 35, 32, 9, 10, 13, 11, 12]

def escapeRe (cs : List Char) : List Char :=
  cs.flatMap (fun c => if isReSpecial c then ['\\', c] else [c])

/-- Python str.split() with no argument: split on whitespace runs,
discarding empty words. -/
def pySplitAux : List Char → List Char → List (List Char)
  | cur, [] => if cur.isEmpty then [] else [cur.reverse]
  | cur, c :: rest =>
    if isSpace c then
      if cur.isEmpty then pySplitAux [] rest
      else cur.reverse :: pySplitAux [] rest
    else pySplitAux (c :: cur) rest

def pySplit (cs : List Char) : List (List Char) :=
  pySplitAux [] cs

/-- The PostgreSQL word-boundary pattern built for one normalized term. -/
def regexPatternFor (n : String) : String :=
  let words := (pySplit n.data).map (fun w => String.mk (escapeRe w))
  "\\m" ++ String.intercalate "\\M.*\\m" words ++ "\\M"

def build_regex_conditions (column : Col) (terms : List String) : List Pred :=
  (validTermsNormalized terms).filterMap (fun n =>
    if (pySplit n.data).isEmpty then none
    else some (.regexIMatch column (regexPatternFor n)))

/-! ## Per-entity filter builders and statement assemblers -/

inductive Projection where
  /-- select(Entity): the whole mapped entity. -/
  | entity (name : String)
  /-- select(c1, c2, ...): an explicit column list. -/
  | columns (cols : List Col)

structure SelectStmt where
  projection : Projection
  joins : List String
  whereClause : Option Pred
  isDistinct : Bool
  orderBy : List (Col × SortDir)

/-- outages_statement_builder._build_outage_type_filter. The Optional
string argument covers the None default; the source treats None, the
wildcard and the empty string as no filter. -/
def _build_outage_type_filter (outage_type : Option String) : Option Pred :=
  match outage_type with
  | none => none
  | some t => if t == "*" || t == "" then none else some (.eqStr .outageType t)

/-- outages_statement_builder._build_outage_location_filter: a deliberately
unimplemented placeholder that returns None for every input. -/
def _build_outage_location_filter (_locations : List String) : Option Pred :=
  none

/-- outages_statement_builder._build_outage_affected_areas_filter: likewise
a placeholder returning None for every input. -/
def _build_outage_affected_areas_filter (_affected_areas : List String) : Option Pred :=
  none

/-- app/tools/statement_builders/outages_statement_builder.py:
build_outages_statement. Defaults in the source: dates, locations and
affected areas default to the singleton wildcard list, the type to the
wildcard string. -/
def build_outages_statement (outage_dates : List String) (outage_type : Option String)
    (locations : List String) (affected_areas : List String) : SelectStmt :=
  let filters : List Pred := []
  let filters := match _build_outage_date_filter outage_dates with
    | some f => filters ++ [f]
    | none => filters
  let filters := match _build_outage_type_filter outage_type with
    | some f => filters ++ [f]
    | none => filters
  let filters := match _build_outage_location_filter locations with
    | some f => filters ++ [f]
    | none => filters
  let filters := match _build_outage_affected_areas_filter affected_areas with
    | some f => filters ++ [f]
    | none => filters
  { projection := .entity "Outage"
    joins := []
    whereClause := if filters.isEmpty then none else some (.andP filters)
    isDistinct := false
    orderBy := [(.outageDate, .desc), (.outageStart, .desc)] }

/-- movies_statement_builder._build_movie_filter. -/
def _build_movie_filter (movies : List String) : Option Pred :=
  if movies = ["*"] then none
  else
    let conditions_primary := build_fuzzy_conditions .movieNormName movies FUZZY_THRESHOLD
    let conditions_greek := build_fuzzy_conditions .movieNormNameGreek movies FUZZY_THRESHOLD
    let conditions_english := build_fuzzy_conditions .movieNormNameEnglish movies FUZZY_THRESHOLD
    let all_movie_conditions := conditions_primary ++ conditions_greek ++ conditions_english
    if all_movie_conditions.isEmpty then none
    else some (.orP all_movie_conditions)

/-- movies_statement_builder._build_genre_filter. -/
def _build_genre_filter (genres : List String) : Option Pred :=
  if genres = ["*"] ∨ genres = [] then none
  else
    let regex_conditions := build_regex_conditions .movieNormGenre genres
    let fuzzy_conditions := build_fuzzy_conditions .movieNormGenre genres FUZZY_THRESHOLD
    let all_genre_conditions := regex_conditions ++ fuzzy_conditions
    if all_genre_conditions.isEmpty then none
    else some (.orP all_genre_conditions)

/-- movies_statement_builder._build_year_filter. -/
def _build_year_filter (year : Option Int) : Option Pred :=
  match year with
  | none => none
  | some y => some (.eqInt .movieYear y)

/-- movies_statement_builder._build_cinema_filter: per name, similarity OR
substring containment on the original (unnormalized) cinema name. -/
def _build_cinema_filter (cinemas : List String) : Option Pred :=
  if cinemas = ["*"] then none
  else
    let cinema_conditions := cinemas.filterMap (fun cinema_name =>
      if cinema_name == "*" || cinema_name == "" then none
      else some (Pred.orP
        [.similarityGt .cinemaName cinema_name FUZZY_THRESHOLD,
         .ilike .cinemaName ("%" ++ cinema_name ++ "%")]))
    if cinema_conditions.isEmpty then none
    else some (.orP cinema_conditions)

/-- app/tools/statement_builders/movies_statement_builder.py:
build_cinemas_statement. -/
def build_cinemas_statement (screening_dates : List String) (movies : List String)
    (cinemas : List String) (halls_and_screening_times : Bool)
    (genres : List String) (year : Option Int) : SelectStmt :=
  let select_columns :=
    if halls_and_screening_times then
      [Col.screeningDate, Col.screeningTime, Col.movieName, Col.cinemaName,
       Col.hallName, Col.movieGenre, Col.movieYear]
    else
      [Col.screeningDate, Col.movieName, Col.cinemaName, Col.movieGenre,
       Col.movieYear]
  let filters : List Pred := []
  let filters := match _build_screening_date_filter screening_dates with
    | some f => filters ++ [f]
    | none => filters
  let filters := match _build_movie_filter movies with
    | some f => filters ++ [f]
    | none => filters
  let filters := match _build_cinema_filter cinemas with
    | some f => filters ++ [f]
    | none => filters
  let filters := match _build_genre_filter genres with
    | some f => filters ++ [f]
    | none => filters
  let filters := match _build_year_filter year with
    | some f => filters ++ [f]
    | none => filters
  let order_columns :=
    [(Col.screeningDate, SortDir.asc), (Col.cinemaName, SortDir.asc),
     (Col.movieName, SortDir.asc)]
  let order_columns :=
    if halls_and_screening_times then order_columns ++ [(Col.screeningTime, SortDir.asc)]
    else order_columns
  { projection := .columns select_columns
    joins := ["Movie", "Hall", "Cinema"]
    whereClause := if filters.isEmpty then none else some (.andP filters)
    isDistinct := !halls_and_screening_times
    orderBy := order_columns }

/-- hospital_shifts_statement_builder._build_hospital_name_filter. -/
def _build_hospital_name_filter (hospital_names : List String) : Option Pred :=
  if hospital_names = ["*"] then none
  else
    let regex_conditions := build_regex_conditions .hospitalNormName hospital_names
    let fuzzy_conditions :=
      build_fuzzy_conditions .hospitalNormName hospital_names FUZZY_THRESHOLD
    let all_conditions := regex_conditions ++ fuzzy_conditions
    match all_conditions with
    | [] => none
    | [c] => some c
    | cs => some (.orP cs)

/-- hospital_shifts_statement_builder._build_specialties_filter: a
documented placeholder; both branches of the source return None. -/
def _build_specialties_filter (specialties : List String) : Option Pred :=
  if specialties = ["*"] ∨ specialties = [] then none
  else none

/-- hospital_shifts_statement_builder._build_hospital_shift_time_filter:
each bound applies only when the argument is not the wildcard and validates
as HH:MM:SS; an invalid format skips that bound. -/
def _build_hospital_shift_time_filter (start_time_str end_time_str : String) :
    Option Pred :=
  let time_conditions : List Pred := []
  let time_conditions :=
    if start_time_str ≠ "*" ∧ isValidTimeHMS start_time_str then
      time_conditions ++ [.geStr .hospitalShiftStartTime start_time_str]
    else time_conditions
  let time_conditions :=
    if end_time_str ≠ "*" ∧ isValidTimeHMS end_time_str then
      time_conditions ++ [.leStr .hospitalShiftEndTime end_time_str]
    else time_conditions
  match time_conditions with
  | [] => none
  | [c] => some c
  | cs => some (.andP cs)

/-- app/tools/statement_builders/hospital_shifts_statement_builder.py:
build_hospital_shifts_statement. The include_contact_info flag does not
affect the statement. -/
def build_hospital_shifts_statement (hospital_shift_dates : List String)
    (hospital_names : List String) (hospital_shifts_start_time : String)
    (hospital_shifts_end_time : String) (specialties : List String)
    (_include_contact_info : Bool) : SelectStmt :=
  let filters : List Pred := []
  let filters := match _build_hospital_shift_date_filter hospital_shift_dates with
    | some f => filters ++ [f]
    | none => filters
  let filters := match _build_hospital_name_filter hospital_names with
    | some f => filters ++ [f]
    | none => filters
  let filters := match _build_hospital_shift_time_filter hospital_shifts_start_time
      hospital_shifts_end_time with
    | some f => filters ++ [f]
    | none => filters
  let filters := match _build_specialties_filter specialties with
    | some f => filters ++ [f]
    | none => filters
  { projection := .entity "HospitalShift"
    joins := []
    whereClause := if filters.isEmpty then none else some (.andP filters)
    isDistinct := false
    orderBy := [(.hospitalShiftDate, .asc), (.hospitalName, .asc)] }

/-- performances_statement_builder._build_performance_name_filter. -/
def _build_performance_name_filter (performance_names : List String) : Option Pred :=
  if performance_names = ["*"] then none
  else
    let name_conditions :=
      build_fuzzy_conditions .performanceNormName performance_names FUZZY_THRESHOLD
    if name_conditions.isEmpty then none
    else some (.orP name_conditions)

/-- performances_statement_builder._build_performance_location_filter. -/
def _build_performance_location_filter (performance_locations : List String) :
    Option Pred :=
  if performance_locations = ["*"] then none
  else
    let location_conditions :=
      build_fuzzy_conditions .performanceNormLocation performance_locations
        FUZZY_THRESHOLD
    if location_conditions.isEmpty then none
    else some (.orP location_conditions)

/-- performances_statement_builder._build_performance_type_filter. -/
def _build_performance_type_filter (performance_type : Option String) : Option Pred :=
  match performance_type with
  | none => none
  | some t => if t == "*" || t == "" then none else some (.eqStr .performanceType t)

/-- app/tools/statement_builders/performances_statement_builder.py:
build_performances_statement. -/
def build_performances_statement (performance_dates : List String)
    (performance_names : List String) (performance_locations : List String)
    (performance_type : Option String) : SelectStmt :=
  let filters : List Pred := []
  let filters := match _build_performance_date_filter performance_dates with
    | some f => filters ++ [f]
    | none => filters
  let filters := match _build_performance_name_filter performance_names with
    | some f => filters ++ [f]
    | none => filters
  let filters := match _build_performance_location_filter performance_locations with
    | some f => filters ++ [f]
    | none => filters
  let filters := match _build_performance_type_filter performance_type with
    | some f => filters ++ [f]
    | none => filters
  { projection := .entity "Performance"
    joins := []
    whereClause := if filters.isEmpty then none else some (.andP filters)
    isDistinct := false
    orderBy := [(.performanceDate, .asc), (.performanceName, .asc)] }

/-! ## Sequential transactional executor
(app/tools/sequential_tool_executor.py)

The executor is generic over the behaviour of the registered tool
functions and formatters, which in the source close over the database
session. A tool function takes the dumped parameters and either returns
raw results or raises; a formatter takes the parameters (only the cinemas
formatter reads them, for the halls_and_screening_times flag) and the raw
results and either returns text or raises. Exceptions are modelled with
Except; the single transaction opened by async-with db.begin() commits if
the loop finishes and rolls back if an exception escapes, which the
wrapper records as a final transaction state.
-/

/-- A tool invocation: its registry name plus the dumped parameters,
treated as an opaque payload. -/
structure ToolCall where
  name : String
  params : String
deriving DecidableEq, Repr

inductive ToolValue where
  /-- Formatted text stored for the tool. -/
  | formatted (s : String)
  /-- Raw results stored when no formatter exists (the history tool). -/
  | raw (r : String)
  /-- The structured error payload, an object with one error message. -/
  | errorPayload (msg : String)
deriving DecidableEq, Repr

inductive TxState where
  | committed | rolledBack
deriving DecidableEq, Repr

abbrev ToolFunc := String → Except String String
abbrev ToolFormatter := String → String → Except String String
abbrev Registry := String → Option ToolFunc
abbrev Formatters := String → Option ToolFormatter

def missingToolMsg (name : String) : String :=
  "Tool " ++ name ++ " not available."

def formatFailedMsg (name : String) : String :=
  "Failed to format results for tool " ++ name ++ "."

/-- Python dict assignment d[k] = v: overwrite in place if the key exists,
otherwise append, preserving insertion order. -/
def dictInsert : List (String × ToolValue) → String → ToolValue →
    List (String × ToolValue)
  | [], k, v => [(k, v)]
  | (k0, v0) :: rest, k, v =>
    if k0 == k then (k0, v) :: rest else (k0, v0) :: dictInsert rest k v

/-- The value stored in all_tool_results for one invocation, assuming its
execution does not raise: the missing-tool error payload, the formatted
text, the formatting-failure payload, or the raw results. -/
def stepValue (registry : Registry) (formatters : Formatters) (c : ToolCall) :
    ToolValue :=
  match registry c.name with
  | none => .errorPayload (missingToolMsg c.name)
  | some tool_func =>
    match tool_func c.params with
    | .error _ => .errorPayload ("Failed to execute tool " ++ c.name ++ ".")
    | .ok raw_results =>
      match formatters c.name with
      | some formatter =>
        match formatter c.params raw_results with
        | .ok s => .formatted s
        | .error _ => .errorPayload (formatFailedMsg c.name)
      | none => .raw raw_results

/-- The loop of execute_tools_sequentially. Returns either the accumulated
result map or the exception re-raised by a failing execution, together with
the names of the invocations whose tool function was actually called. On
an execution failure the error payload written to the local map is
discarded with the map itself, because the exception propagates. -/
def execLoop (registry : Registry) (formatters : Formatters) :
    List ToolCall → List (String × ToolValue) → List String →
    Except String (List (String × ToolValue)) × List String
  | [], acc, attempted => (.ok acc, attempted)
  | c :: rest, acc, attempted =>
    match registry c.name with
    | none =>
      execLoop registry formatters rest
        (dictInsert acc c.name (.errorPayload (missingToolMsg c.name))) attempted
    | some tool_func =>
      match tool_func c.params with
      | .error e => (.error e, attempted ++ [c.name])
      | .ok raw_results =>
        let v : ToolValue :=
          match formatters c.name with
          | some formatter =>
            match formatter c.params raw_results with
            | .ok s => .formatted s
            | .error _ => .errorPayload (formatFailedMsg c.name)
          | none => .raw raw_results
        execLoop registry formatters rest (dictInsert acc c.name v)
          (attempted ++ [c.name])

/-- app/tools/sequential_tool_executor.py: execute_tools_sequentially.
The triple is the final transaction state, the returned map or the
propagated exception, and the trace of executed invocations. -/
def execute_tools_sequentially (registry : Registry) (formatters : Formatters)
    (tool_calls : List ToolCall) :
    TxState × Except String (List (String × ToolValue)) × List String :=
  match execLoop registry formatters tool_calls [] [] with
  | (.ok m, attempted) => (.committed, .ok m, attempted)
  | (.error e, attempted) => (.rolledBack, .error e, attempted)

/-- True when the invocation cannot abort the batch: its tool is either
missing from the registry or executes without raising. -/
def noExecFailure (registry : Registry) (c : ToolCall) : Bool :=
  match registry c.name with
  | none => true
  | some tool_func =>
    match tool_func c.params with
    | .ok _ => true
    | .error _ => false

/-- The names of the invocations in the list whose tool function gets
called (those found in the registry). -/
def attemptsOf (registry : Registry) (calls : List ToolCall) : List String :=
  calls.filterMap (fun c =>
    match registry c.name with
    | some _ => some c.name
    | none => none)

/-! ## Outages result formatter (app/tools/formatters/outages_formatter.py) -/

/-- The subset of the Outage model the formatter reads. -/
structure Outage where
  outage_date : Option Date
  outage_type : Option String
  outage_location : Option String
  outage_affected_areas : Option String
  outage_start : Option Time
  outage_end : Option Time

def pad2 (n : Nat) : String :=
  if n < 10 then "0" ++ toString n else toString n

/-- strftime of a date with the day-first format used by the formatters. -/
def strftimeDMY (d : Date) : String :=
  pad2 d.day ++ "/" ++ pad2 d.month ++ "/" ++ toString d.year

/-- strftime of a time with the hour-minute format. -/
def strftimeHM (t : Time) : String :=
  pad2 t.hour ++ ":" ++ pad2 t.minute

/-- Python string comparison: lexicographic on code points. -/
def charListLt : List Char → List Char → Bool
  | [], [] => false
  | [], _ :: _ => true
  | _ :: _, [] => false
  | a :: as, b :: bs =>
    if a.toNat < b.toNat then true
    else if b.toNat < a.toNat then false
    else charListLt as bs

def strLtB (a b : String) : Bool :=
  charListLt a.data b.data

/-- Stable insertion into a list sorted by the given strict order: the new
element goes after every element not strictly greater. -/
def insertSortedBy {α : Type} (lt : α → α → Bool) : α → List α → List α
  | x, [] => [x]
  | x, y :: ys => if lt x y then x :: y :: ys else y :: insertSortedBy lt x ys

/-- Python sorted(): stable sort; elements are inserted left to right so an
element arriving later is placed after equal keys. -/
def sortByB {α : Type} (lt : α → α → Bool) (l : List α) : List α :=
  l.foldl (fun acc x => insertSortedBy lt x acc) []

/-- The grouping key of a row: the formatted date string, or the fixed
unknown-date label. -/
def outageDateKey (o : Outage) : String :=
  match o.outage_date with
  | some d => strftimeDMY d
  | none => "Άγνωστη Ημερομηνία"

/-- Append a row to its group, preserving dict insertion order. -/
def groupAppend (groups : List (String × List Outage)) (key : String) (o : Outage) :
    List (String × List Outage) :=
  match groups with
  | [] => [(key, [o])]
  | (k0, os) :: rest =>
    if k0 == key then (k0, os ++ [o]) :: rest
    else (k0, os) :: groupAppend rest key o

def groupOutagesByDate (outages : List Outage) : List (String × List Outage) :=
  outages.foldl (fun g o => groupAppend g (outageDateKey o) o) []

/-- Sort key (outage_start is None, outage_start) of the per-day sort. -/
def outageStartLt (a b : Outage) : Bool :=
  match a.outage_start, b.outage_start with
  | none, _ => false
  | some _, none => true
  | some t1, some t2 =>
    if t1.hour < t2.hour then true
    else if t2.hour < t1.hour then false
    else t1.minute < t2.minute

def splitLinesChar : List Char → List (List Char)
  | [] => [[]]
  | c :: rest =>
    let r := splitLinesChar rest
    if c == '\n' then
      [] :: r
    else
      match r with
      | [] => [[c]]
      | w :: ws => (c :: w) :: ws

/-- Python str.splitlines for newline-delimited text (the affected-areas
and specialties fields are newline-delimited): no trailing empty line. -/
def pySplitlines (s : String) : List String :=
  match (splitLinesChar s.data).reverse with
  | [] :: rest => (rest.reverse).map String.mk
  | ws => (ws.reverse).map String.mk

/-- One formatted outage line. -/
def outageLine (o : Outage) : String :=
  let typeDisplay :=
    match o.outage_type with
    | some t =>
      if t == "power" then "ρεύματος"
      else if t == "water" then "νερού"
      else if t == "" then "Άγνωστος" else t
    | none => "Άγνωστος"
  let line := "- Τύπος: " ++ typeDisplay
  let line :=
    match o.outage_location with
    | some l => if l == "" then line else line ++ ", Τοποθεσία: " ++ l
    | none => line
  let line :=
    match o.outage_affected_areas with
    | some a =>
      if a == "" then line
      else line ++ ", Περιοχές: " ++ String.intercalate ", " (pySplitlines a)
    | none => line
  let start_time :=
    match o.outage_start with
    | some t => strftimeHM t
    | none => "Άγνωστη"
  let end_time :=
    match o.outage_end with
    | some t => strftimeHM t
    | none => "Άγνωστη"
  line ++ ", Ώρες: " ++ start_time ++ " - " ++ end_time

/-- app/tools/formatters/outages_formatter.py: format_outages. Groups rows
by the formatted day-first date string, sorts group keys as strings, sorts
within a day by start time with unknown starts last, and joins everything
with newlines. -/
def format_outages (outages : List Outage) : String :=
  if outages.isEmpty then
    "Δεν βρέθηκαν προγραμματισμένες διακοπές που να ταιριάζουν με τα κριτήριά σας."
  else
    let groups := sortByB (fun a b => strLtB a.1 b.1) (groupOutagesByDate outages)
    let lines :=
      "Βρέθηκαν οι ακόλουθες προγραμματισμένες διακοπές:" ::
        groups.flatMap (fun g =>
          ("\n--- " ++ g.1 ++ " ---") :: (sortByB outageStartLt g.2).map outageLine)
    String.intercalate "\n" lines

/-! ## Claim theorems -/

/-- A statement orders ascending by a date column first. -/
def isDateCol (c : Col) : Bool :=
  match c with
  | .outageDate | .screeningDate | .hospitalShiftDate | .performanceDate => true
  | _ => false

def dateAscFirst (st : SelectStmt) : Prop :=
  ∃ c, st.orderBy.head? = some (c, SortDir.asc) ∧ isDateCol c = true

/-- C8: the outage location filter, the outage affected-areas filter and
the hospital-shift specialties filter are no-op placeholders: they return
no predicate for every input list, including non-wildcard terms. -/
theorem c8_placeholder_filters_none (locations affected_areas specialties : List String) :
    _build_outage_location_filter locations = none
      ∧ _build_outage_affected_areas_filter affected_areas = none
      ∧ _build_specialties_filter specialties = none := by
  refine ⟨rfl, rfl, ?_⟩
  unfold _build_specialties_filter
  split <;> rfl

/-- C5 counterexample: the outages statement does not order ascending by
date first; its ordering is descending by date, then descending by start
time, so the claim fails on the outages assembler. -/
theorem c5_counterexample :
    ¬ dateAscFirst (build_outages_statement ["*"] none ["*"] ["*"])
      ∧ (build_outages_statement ["*"] none ["*"] ["*"]).orderBy
          = [(Col.outageDate, SortDir.desc), (Col.outageStart, SortDir.desc)] := by
  constructor
  · rintro ⟨c, h, -⟩
    simp [build_outages_statement] at h
  · rfl

/-- C5 amended: the cinemas, performances and hospital-shifts statements
order ascending by date first with their natural secondary keys (cinema
then movie name, plus screening time when requested; performance name;
hospital name), while the outages statement orders descending by date and
then descending by start time. -/
theorem c5_ordering (outage_dates : List String) (outage_type : Option String)
    (locations affected_areas : List String)
    (screening_dates movies cinemas : List String) (halls : Bool)
    (genres : List String) (year : Option Int)
    (hospital_shift_dates hospital_names : List String) (hs_start hs_end : String)
    (specialties : List String) (contact : Bool)
    (performance_dates performance_names performance_locations : List String)
    (performance_type : Option String) :
    (build_cinemas_statement screening_dates movies cinemas halls genres year).orderBy
        = [(Col.screeningDate, SortDir.asc), (Col.cinemaName, SortDir.asc),
           (Col.movieName, SortDir.asc)]
          ++ (if halls then [(Col.screeningTime, SortDir.asc)] else [])
      ∧ (build_performances_statement performance_dates performance_names
            performance_locations performance_type).orderBy
          = [(Col.performanceDate, SortDir.asc), (Col.performanceName, SortDir.asc)]
      ∧ (build_hospital_shifts_statement hospital_shift_dates hospital_names
            hs_start hs_end specialties contact).orderBy
          = [(Col.hospitalShiftDate, SortDir.asc), (Col.hospitalName, SortDir.asc)]
      ∧ dateAscFirst (build_cinemas_statement screening_dates movies cinemas halls
            genres year)
      ∧ dateAscFirst (build_performances_statement performance_dates
            performance_names performance_locations performance_type)
      ∧ dateAscFirst (build_hospital_shifts_statement hospital_shift_dates
            hospital_names hs_start hs_end specialties contact)
      ∧ (build_outages_statement outage_dates outage_type locations
            affected_areas).orderBy
          = [(Col.outageDate, SortDir.desc), (Col.outageStart, SortDir.desc)] := by
  refine ⟨by cases halls <;> rfl, rfl, rfl, ?_, ?_, ?_, rfl⟩
  · exact ⟨Col.screeningDate, by cases halls <;> rfl, rfl⟩
  · exact ⟨Col.performanceDate, rfl, rfl⟩
  · exact ⟨Col.hospitalShiftDate, rfl, rfl⟩

/-- C6: evaluating the outages formatter on two rows dated 2023-01-02 and
2023-02-01 shows the date sections are ordered by the day-first formatted
string, not by calendar date: the section for 1 February 2023 is rendered
before the section for 2 January 2023 in both input orders. -/
theorem c6_formatter_date_order_bug :
    format_outages
        [⟨some ⟨2023, 1, 2⟩, none, none, none, none, none⟩,
         ⟨some ⟨2023, 2, 1⟩, none, none, none, none, none⟩]
      = "Βρέθηκαν οι ακόλουθες προγραμματισμένες διακοπές:\n\n--- 01/02/2023 ---\n- Τύπος: Άγνωστος, Ώρες: Άγνωστη - Άγνωστη\n\n--- 02/01/2023 ---\n- Τύπος: Άγνωστος, Ώρες: Άγνωστη - Άγνωστη"
    ∧ format_outages
        [⟨some ⟨2023, 2, 1⟩, none, none, none, none, none⟩,
         ⟨some ⟨2023, 1, 2⟩, none, none, none, none, none⟩]
      = "Βρέθηκαν οι ακόλουθες προγραμματισμένες διακοπές:\n\n--- 01/02/2023 ---\n- Τύπος: Άγνωστος, Ώρες: Άγνωστη - Άγνωστη\n\n--- 02/01/2023 ---\n- Τύπος: Άγνωστος, Ώρες: Άγνωστη - Άγνωστη" := by
  exact ⟨rfl, rfl⟩

/-- A list all of whose entries are the wildcard sentinel or empty: the
shapes a field takes when unconstrained (the default singleton wildcard,
the empty list, or any mix of wildcards and empties). -/
def sentinelOnly (l : List String) : Prop :=
  ∀ s ∈ l, s = "*" ∨ s = ""

instance (l : List String) : Decidable (sentinelOnly l) :=
  List.decidableBAll (fun s => s = "*" ∨ s = "") l

theorem collectDates_sentinel (l : List String) (h : sentinelOnly l) :
    collectDates l = ([], false) := by
  induction l with
  | nil => rfl
  | cons s rest ih =>
    have hs : isSentinel s = true := by
      rcases h s (List.mem_cons_self s rest) with h1 | h1 <;>
        simp [isSentinel, h1]
    have := ih (fun x hx => h x (List.mem_cons_of_mem s hx))
    simp [collectDates, hs, this]

theorem validTermsNormalized_sentinel (l : List String) (h : sentinelOnly l) :
    validTermsNormalized l = [] := by
  induction l with
  | nil => rfl
  | cons s rest ih =>
    have hs : (s == "*" || s == "") = true := by
      rcases h s (List.mem_cons_self s rest) with h1 | h1 <;> simp [h1]
    have := ih (fun x hx => h x (List.mem_cons_of_mem s hx))
    simp only [validTermsNormalized, List.filterMap_cons, hs, if_pos]
    exact this

theorem dateFilterCore_sentinel (col : Col) (l : List String) (h : sentinelOnly l) :
    dateFilterCore col l = none := by
  unfold dateFilterCore
  by_cases hl : l = ["*"]
  · simp [hl]
  · simp [hl, collectDates_sentinel l h]

theorem build_fuzzy_conditions_sentinel (col : Col) (l : List String) (t : Rat)
    (h : sentinelOnly l) : build_fuzzy_conditions col l t = [] := by
  simp [build_fuzzy_conditions, validTermsNormalized_sentinel l h]

theorem build_regex_conditions_sentinel (col : Col) (l : List String)
    (h : sentinelOnly l) : build_regex_conditions col l = [] := by
  simp [build_regex_conditions, validTermsNormalized_sentinel l h]

theorem filterMap_sentinel_none {β : Type} (f : String → Option β)
    (hf : ∀ s, s = "*" ∨ s = "" → f s = none) :
    ∀ l : List String, sentinelOnly l → l.filterMap f = [] := by
  intro l h
  induction l with
  | nil => rfl
  | cons s rest ih =>
    rw [List.filterMap_cons, hf s (h s (List.mem_cons_self s rest)),
      ih (fun x hx => h x (List.mem_cons_of_mem s hx))]

theorem cinema_filter_sentinel (l : List String) (h : sentinelOnly l) :
    _build_cinema_filter l = none := by
  unfold _build_cinema_filter
  by_cases hl : l = ["*"]
  · simp [hl]
  · rw [if_neg hl, filterMap_sentinel_none _ (by rintro s (rfl | rfl) <;> rfl) l h]
    rfl

theorem outage_date_filter_sentinel (l : List String) (h : sentinelOnly l) :
    _build_outage_date_filter l = none :=
  dateFilterCore_sentinel Col.outageDate l h

theorem screening_date_filter_sentinel (l : List String) (h : sentinelOnly l) :
    _build_screening_date_filter l = none :=
  dateFilterCore_sentinel Col.screeningDate l h

theorem hospital_date_filter_sentinel (l : List String) (h : sentinelOnly l) :
    _build_hospital_shift_date_filter l = none :=
  dateFilterCore_sentinel Col.hospitalShiftDate l h

theorem performance_date_filter_sentinel (l : List String) (h : sentinelOnly l) :
    _build_performance_date_filter l = none :=
  dateFilterCore_sentinel Col.performanceDate l h

/-- The unconstrained shapes of a scalar type field: absent, wildcard or
empty. -/
def sentinelScalar (v : Option String) : Prop :=
  v = none ∨ v = some "*" ∨ v = some ""

theorem outage_type_filter_sentinel (v : Option String) (h : sentinelScalar v) :
    _build_outage_type_filter v = none := by
  rcases h with rfl | rfl | rfl <;> rfl

theorem performance_type_filter_sentinel (v : Option String) (h : sentinelScalar v) :
    _build_performance_type_filter v = none := by
  rcases h with rfl | rfl | rfl <;> rfl

theorem movie_filter_sentinel (l : List String) (h : sentinelOnly l) :
    _build_movie_filter l = none := by
  unfold _build_movie_filter
  by_cases hl : l = ["*"]
  · simp [hl]
  · simp [hl, build_fuzzy_conditions_sentinel _ l _ h]

theorem genre_filter_sentinel (l : List String) (h : sentinelOnly l) :
    _build_genre_filter l = none := by
  unfold _build_genre_filter
  by_cases hl : l = ["*"] ∨ l = []
  · simp [hl]
  · simp [hl, build_fuzzy_conditions_sentinel _ l _ h,
      build_regex_conditions_sentinel _ l h]

theorem hospital_name_filter_sentinel (l : List String) (h : sentinelOnly l) :
    _build_hospital_name_filter l = none := by
  unfold _build_hospital_name_filter
  by_cases hl : l = ["*"]
  · simp [hl]
  · simp [hl, build_fuzzy_conditions_sentinel _ l _ h,
      build_regex_conditions_sentinel _ l h]

theorem hospital_time_filter_sentinel :
    _build_hospital_shift_time_filter "*" "*" = none := by
  rfl

/-- C4: for every filter builder, a field given only wildcard or empty
entries (including the default singleton wildcard, an absent scalar and the
empty list) produces no predicate at all, and each of the four statement
assemblers, given such inputs for every field, produces a statement with no
WHERE clause whatsoever. -/
theorem c4_sentinel_inputs_no_predicate
    (d1 l1 a1 d2 m2 c2 g2 d3 n3 s3 d4 n4 lo4 : List String)
    (t1 t4 : Option String) (halls contact : Bool)
    (hd1 : sentinelOnly d1) (hl1 : sentinelOnly l1) (ha1 : sentinelOnly a1)
    (hd2 : sentinelOnly d2) (hm2 : sentinelOnly m2) (hc2 : sentinelOnly c2)
    (hg2 : sentinelOnly g2) (hd3 : sentinelOnly d3) (hn3 : sentinelOnly n3)
    (hs3 : sentinelOnly s3) (hd4 : sentinelOnly d4) (hn4 : sentinelOnly n4)
    (hlo4 : sentinelOnly lo4) (ht1 : sentinelScalar t1) (ht4 : sentinelScalar t4) :
    _build_outage_date_filter d1 = none
      ∧ _build_outage_type_filter t1 = none
      ∧ _build_outage_location_filter l1 = none
      ∧ _build_outage_affected_areas_filter a1 = none
      ∧ _build_screening_date_filter d2 = none
      ∧ _build_movie_filter m2 = none
      ∧ _build_cinema_filter c2 = none
      ∧ _build_genre_filter g2 = none
      ∧ _build_year_filter none = none
      ∧ _build_hospital_shift_date_filter d3 = none
      ∧ _build_hospital_name_filter n3 = none
      ∧ _build_hospital_shift_time_filter "*" "*" = none
      ∧ _build_specialties_filter s3 = none
      ∧ _build_performance_date_filter d4 = none
      ∧ _build_performance_name_filter n4 = none
      ∧ _build_performance_location_filter lo4 = none
      ∧ _build_performance_type_filter t4 = none
      ∧ (build_outages_statement d1 t1 l1 a1).whereClause = none
      ∧ (build_cinemas_statement d2 m2 c2 halls g2 none).whereClause = none
      ∧ (build_hospital_shifts_statement d3 n3 "*" "*" s3 contact).whereClause = none
      ∧ (build_performances_statement d4 n4 lo4 t4).whereClause = none := by
  have perf_name : _build_performance_name_filter n4 = none := by
    unfold _build_performance_name_filter
    by_cases hl : n4 = ["*"]
    · simp [hl]
    · simp [hl, build_fuzzy_conditions_sentinel _ n4 _ hn4]
  have perf_loc : _build_performance_location_filter lo4 = none := by
    unfold _build_performance_location_filter
    by_cases hl : lo4 = ["*"]
    · simp [hl]
    · simp [hl, build_fuzzy_conditions_sentinel _ lo4 _ hlo4]
  have spec3 : _build_specialties_filter s3 = none := by
    unfold _build_specialties_filter
    split <;> rfl
  refine ⟨outage_date_filter_sentinel d1 hd1, outage_type_filter_sentinel t1 ht1,
    rfl, rfl,
    screening_date_filter_sentinel d2 hd2, movie_filter_sentinel m2 hm2,
    cinema_filter_sentinel c2 hc2, genre_filter_sentinel g2 hg2, rfl,
    hospital_date_filter_sentinel d3 hd3, hospital_name_filter_sentinel n3 hn3,
    rfl, spec3,
    performance_date_filter_sentinel d4 hd4, perf_name, perf_loc,
    performance_type_filter_sentinel t4 ht4, ?_, ?_, ?_, ?_⟩
  · simp [build_outages_statement, outage_date_filter_sentinel d1 hd1,
      outage_type_filter_sentinel t1 ht1, _build_outage_location_filter,
      _build_outage_affected_areas_filter]
  · simp [build_cinemas_statement, screening_date_filter_sentinel d2 hd2,
      movie_filter_sentinel m2 hm2, cinema_filter_sentinel c2 hc2,
      genre_filter_sentinel g2 hg2, _build_year_filter]
  · simp [build_hospital_shifts_statement, hospital_date_filter_sentinel d3 hd3,
      hospital_name_filter_sentinel n3 hn3, hospital_time_filter_sentinel, spec3]
  · simp [build_performances_statement, performance_date_filter_sentinel d4 hd4,
      perf_name, perf_loc, performance_type_filter_sentinel t4 ht4]

/-- C4 witness: the default arguments of every assembler (singleton
wildcard lists, wildcard scalars, absent year) yield statements without a
WHERE clause. -/
theorem c4_witness :
    (build_outages_statement ["*"] (some "*") ["*"] ["*"]).whereClause = none
      ∧ (build_cinemas_statement ["*"] ["*"] ["*"] false ["*"] none).whereClause = none
      ∧ (build_hospital_shifts_statement ["*"] ["*"] "*" "*" ["*"] false).whereClause
          = none
      ∧ (build_performances_statement ["*"] ["*"] ["*"] (some "*")).whereClause
          = none := by
  have h := c4_sentinel_inputs_no_predicate ["*"] ["*"] ["*"] ["*"] ["*"] ["*"] ["*"]
    ["*"] ["*"] ["*"] ["*"] ["*"] ["*"] (some "*") (some "*") false false
    (by decide) (by decide)
    (by decide) (by decide)
    (by decide) (by decide)
    (by decide) (by decide)
    (by decide) (by decide)
    (by decide) (by decide)
    (by decide) (Or.inr (Or.inl rfl))
    (Or.inr (Or.inl rfl))
  exact ⟨h.2.2.2.2.2.2.2.2.2.2.2.2.2.2.2.2.2.1, h.2.2.2.2.2.2.2.2.2.2.2.2.2.2.2.2.2.2.1,
    h.2.2.2.2.2.2.2.2.2.2.2.2.2.2.2.2.2.2.2.1, h.2.2.2.2.2.2.2.2.2.2.2.2.2.2.2.2.2.2.2.2⟩

theorem outage_filter_eq_core (dates : List String) :
    _build_outage_date_filter dates = dateFilterCore Col.outageDate dates := rfl

theorem screening_filter_eq_core (dates : List String) :
    _build_screening_date_filter dates = dateFilterCore Col.screeningDate dates := rfl

theorem hospital_filter_eq_core (dates : List String) :
    _build_hospital_shift_date_filter dates
      = dateFilterCore Col.hospitalShiftDate dates := rfl

theorem performance_filter_eq_core (dates : List String) :
    _build_performance_date_filter dates
      = dateFilterCore Col.performanceDate dates := rfl

/-- Closed form of the shared date-filter logic away from the pure-wildcard
case: an IN predicate over the parsed dates when some entry parses, the
always-false predicate when entries were attempted but none parsed, and no
predicate when nothing was attempted. -/
theorem dateFilterCore_eq (col : Col) (dates : List String) (h : dates ≠ ["*"]) :
    dateFilterCore col dates =
      if !(parsedDates dates).isEmpty then
        some (.inDates col (parsedDates dates))
      else if !(attemptedEntries dates).isEmpty then some .falseP
      else none := by
  simp only [dateFilterCore, if_neg h, collectDates_fst, collectDates_snd]

/-- C3: for every date-list filter builder and every input list other than
the pure wildcard singleton, each non-wildcard non-empty entry is parsed as
an ISO date and unparseable entries are skipped (the builders are total);
if at least one entry was attempted but none parsed, the builder returns
the always-false predicate, which matches no row; if at least one parsed,
it returns the IN predicate over exactly the parsed dates. -/
theorem c3_date_filter_characterization (dates : List String) (h : dates ≠ ["*"]) :
    (attemptedEntries dates ≠ [] ∧ parsedDates dates = [] →
        _build_outage_date_filter dates = some .falseP
          ∧ _build_screening_date_filter dates = some .falseP
          ∧ _build_hospital_shift_date_filter dates = some .falseP
          ∧ _build_performance_date_filter dates = some .falseP)
      ∧ (parsedDates dates ≠ [] →
        _build_outage_date_filter dates
            = some (.inDates Col.outageDate (parsedDates dates))
          ∧ _build_screening_date_filter dates
            = some (.inDates Col.screeningDate (parsedDates dates))
          ∧ _build_hospital_shift_date_filter dates
            = some (.inDates Col.hospitalShiftDate (parsedDates dates))
          ∧ _build_performance_date_filter dates
            = some (.inDates Col.performanceDate (parsedDates dates)))
      ∧ (∀ d, evalDatePred Pred.falseP d = false) := by
  refine ⟨?_, ?_, fun _ => rfl⟩
  · rintro ⟨ha, hp⟩
    have he : (attemptedEntries dates).isEmpty = false := by
      simpa [List.isEmpty_iff] using ha
    refine ⟨?_, ?_, ?_, ?_⟩ <;>
      simp [outage_filter_eq_core, screening_filter_eq_core,
        hospital_filter_eq_core, performance_filter_eq_core,
        dateFilterCore_eq _ dates h, hp, he]
  · intro hp
    have he : (parsedDates dates).isEmpty = false := by
      simpa [List.isEmpty_iff] using hp
    refine ⟨?_, ?_, ?_, ?_⟩ <;>
      simp [outage_filter_eq_core, screening_filter_eq_core,
        hospital_filter_eq_core, performance_filter_eq_core,
        dateFilterCore_eq _ dates h, he]

/-- C3 witness: a list with only an unparseable entry yields the
always-false predicate, and a list with one valid ISO date yields the IN
predicate over that date. -/
theorem c3_witness :
    _build_outage_date_filter ["nope"] = some Pred.falseP
      ∧ _build_screening_date_filter ["2024-03-20"]
          = some (Pred.inDates Col.screeningDate [⟨2024, 3, 20⟩]) := by
  have h1 := (c3_date_filter_characterization ["nope"] (by decide)).1
    ⟨by decide, by decide⟩
  have h2 := (c3_date_filter_characterization ["2024-03-20"] (by decide)).2.1
    (by decide)
  exact ⟨h1.1, h2.2.1⟩

/-- C1 counterexample: with an unparseable non-wildcard entry alongside a
valid ISO date, the built outage date predicate is the IN predicate over
the valid date and matches a row carrying that date, so it does not match
zero rows as the claim states. -/
theorem c1_counterexample :
    parseISODate "not-a-date" = none
      ∧ ("not-a-date" : String) ≠ "*"
      ∧ _build_outage_date_filter ["2024-03-20", "not-a-date"]
          = some (Pred.inDates Col.outageDate [⟨2024, 3, 20⟩])
      ∧ evalDatePred (Pred.inDates Col.outageDate [⟨2024, 3, 20⟩]) ⟨2024, 3, 20⟩
          = true := by
  exact ⟨rfl, by decide, rfl, rfl⟩

/-- C1 amended: unparseable entries in a date list are skipped; whenever at
least one entry parses, the built predicate matches exactly the rows whose
date is among the parsed dates (the always-false predicate arises only when
entries were attempted and none parsed). -/
theorem c1_date_filter_semantics (dates : List String) (d : Date)
    (h : dates ≠ ["*"]) (hp : parsedDates dates ≠ []) :
    ∃ p, _build_outage_date_filter dates = some p
      ∧ (evalDatePred p d = true ↔ d ∈ parsedDates dates) := by
  refine ⟨.inDates Col.outageDate (parsedDates dates), ?_, ?_⟩
  · have he : (parsedDates dates).isEmpty = false := by
      simpa [List.isEmpty_iff] using hp
    simp [outage_filter_eq_core, dateFilterCore_eq _ dates h, he]
  · simp [evalDatePred]

/-- C1 witness: the amended statement evaluated at the concrete scenario of
the claim. -/
theorem c1_witness :
    ∃ p, _build_outage_date_filter ["2024-03-20", "not-a-date"] = some p
      ∧ (evalDatePred p ⟨2024, 3, 20⟩ = true
          ↔ (⟨2024, 3, 20⟩ : Date) ∈ parsedDates ["2024-03-20", "not-a-date"]) :=
  c1_date_filter_semantics ["2024-03-20", "not-a-date"] ⟨2024, 3, 20⟩
    (by decide) (by decide)

/-! ## Executor lemmas -/

/-- The result map accumulated by a run in which no execution fails. -/
def resultsMap (registry : Registry) (formatters : Formatters)
    (calls : List ToolCall) : List (String × ToolValue) :=
  calls.foldl (fun a c => dictInsert a c.name (stepValue registry formatters c)) []

theorem lookup_dictInsert (a : List (String × ToolValue)) (n k : String)
    (v : ToolValue) :
    List.lookup k (dictInsert a n v) = if k = n then some v else List.lookup k a := by
  induction a with
  | nil =>
    by_cases h : k = n
    · simp [dictInsert, List.lookup, h]
    · simp [dictInsert, List.lookup, h, (show (k == n) = false by simpa using h)]
  | cons kv rest ih =>
    obtain ⟨k0, v0⟩ := kv
    by_cases h0 : k0 = n
    · subst h0
      by_cases h : k = k0
      · subst h
        simp [dictInsert, List.lookup]
      · simp [dictInsert, List.lookup, h,
          (show (k == k0) = false by simpa using h)]
    · have h0b : (k0 == n) = false := by simpa using h0
      by_cases h : k = k0
      · subst h
        simp [dictInsert, List.lookup, h0b, h0]
      · simp [dictInsert, List.lookup, h0b,
          (show (k == k0) = false by simpa using h), ih]

theorem execLoop_ok_front (registry : Registry) (formatters : Formatters)
    (rest : List ToolCall) :
    ∀ (pre : List ToolCall) (acc : List (String × ToolValue)) (att : List String),
    (∀ cc ∈ pre, noExecFailure registry cc = true) →
    execLoop registry formatters (pre ++ rest) acc att
      = execLoop registry formatters rest
          (pre.foldl
            (fun a c => dictInsert a c.name (stepValue registry formatters c)) acc)
          (att ++ attemptsOf registry pre) := by
  intro pre
  induction pre with
  | nil => intro acc att _; simp [attemptsOf]
  | cons cc pre ih =>
    intro acc att hok
    have hcc := hok cc (List.mem_cons_self cc pre)
    have hrest : ∀ x ∈ pre, noExecFailure registry x = true :=
      fun x hx => hok x (List.mem_cons_of_mem cc hx)
    cases hm : registry cc.name with
    | none =>
      have hstep : stepValue registry formatters cc
          = .errorPayload (missingToolMsg cc.name) := by
        simp [stepValue, hm]
      simp only [List.cons_append, execLoop, hm, List.append_eq]
      rw [ih _ att hrest]
      simp [attemptsOf, List.filterMap_cons, hm, hstep]
    | some g =>
      cases hr : g cc.params with
      | error e =>
        exfalso
        simp [noExecFailure, hm, hr] at hcc
      | ok raw =>
        have hstep : stepValue registry formatters cc
            = match formatters cc.name with
              | some formatter =>
                match formatter cc.params raw with
                | .ok s => .formatted s
                | .error _ => .errorPayload (formatFailedMsg cc.name)
              | none => .raw raw := by
          simp [stepValue, hm, hr]
        simp only [List.cons_append, execLoop, hm, hr, List.append_eq]
        rw [ih _ (att ++ [cc.name]) hrest]
        simp [attemptsOf, List.filterMap_cons, hm, hstep]

theorem execLoop_exec_error (registry : Registry) (formatters : Formatters)
    (c : ToolCall) (f : ToolFunc) (e : String) (post : List ToolCall)
    (hf : registry c.name = some f) (he : f c.params = .error e)
    (acc : List (String × ToolValue)) (att : List String) :
    execLoop registry formatters (c :: post) acc att = (.error e, att ++ [c.name]) := by
  simp [execLoop, hf, he]

theorem execLoop_all_ok (registry : Registry) (formatters : Formatters)
    (calls : List ToolCall) (hok : ∀ cc ∈ calls, noExecFailure registry cc = true) :
    execLoop registry formatters calls [] []
      = (.ok (resultsMap registry formatters calls), attemptsOf registry calls) := by
  have h := execLoop_ok_front registry formatters [] calls [] [] ?_
  · simpa [execLoop, resultsMap] using h
  · simpa using hok

/-- C2: if invocation K raises during query execution, the executor never
attempts invocations K+1..N (the whole run is the same as if they were
absent), the exception propagates so no result map is returned, and the
transaction is rolled back instead of committed. The trace component lists
the invocations whose tool function was called: exactly those before K
that are in the registry, then K itself. -/
theorem c2_execution_failure_aborts (registry : Registry) (formatters : Formatters)
    (pre post : List ToolCall) (c : ToolCall) (f : ToolFunc) (e : String)
    (hpre : ∀ cc ∈ pre, noExecFailure registry cc = true)
    (hf : registry c.name = some f) (he : f c.params = .error e) :
    execute_tools_sequentially registry formatters (pre ++ c :: post)
        = (TxState.rolledBack, Except.error e, attemptsOf registry pre ++ [c.name])
      ∧ execute_tools_sequentially registry formatters (pre ++ c :: post)
        = execute_tools_sequentially registry formatters (pre ++ [c]) := by
  have h1 : execLoop registry formatters (pre ++ c :: post) [] []
      = (.error e, attemptsOf registry pre ++ [c.name]) := by
    rw [execLoop_ok_front registry formatters (c :: post) pre [] [] hpre,
      execLoop_exec_error registry formatters c f e post hf he]
    simp
  have h2 : execLoop registry formatters (pre ++ [c]) [] []
      = (.error e, attemptsOf registry pre ++ [c.name]) := by
    rw [execLoop_ok_front registry formatters [c] pre [] [] hpre,
      execLoop_exec_error registry formatters c f e [] hf he]
    simp
  unfold execute_tools_sequentially
  rw [h1, h2]
  exact ⟨rfl, rfl⟩

/-- A registry with one succeeding tool and one whose execution raises,
used to evaluate the executor theorems on concrete batches. -/
def demoRegistry : Registry := fun n =>
  if n = "history" then some (fun _ => .ok "corpus")
  else if n = "outages" then some (fun _ => .error "connection lost")
  else none

def demoFormatters : Formatters := fun _ => none

/-- C2 witness: in a three-call batch whose second call fails during
execution, the third is never attempted, the exception propagates instead
of a result map, and the transaction rolls back. -/
theorem c2_witness :
    execute_tools_sequentially demoRegistry demoFormatters
        [⟨"history", "q"⟩, ⟨"outages", "args"⟩, ⟨"history", "again"⟩]
      = (TxState.rolledBack, Except.error "connection lost",
          ["history", "outages"]) := by
  have h := c2_execution_failure_aborts demoRegistry demoFormatters
    [⟨"history", "q"⟩] [⟨"history", "again"⟩] ⟨"outages", "args"⟩
    (fun _ => Except.error "connection lost") "connection lost"
    (by decide) rfl rfl
  exact h.1

theorem lookup_resultsFold (g : ToolCall → ToolValue) (k : String) :
    ∀ (calls : List ToolCall) (acc : List (String × ToolValue)),
    List.lookup k (calls.foldl (fun a c => dictInsert a c.name (g c)) acc)
      = match calls.reverse.find? (fun c => c.name == k) with
        | some c => some (g c)
        | none => List.lookup k acc := by
  intro calls
  induction calls with
  | nil => intro acc; simp
  | cons c rest ih =>
    intro acc
    simp only [List.foldl_cons, List.reverse_cons]
    rw [ih, List.find?_append]
    cases hfind : rest.reverse.find? (fun x => x.name == k) with
    | some c2 => simp [hfind]
    | none =>
      by_cases hk : c.name = k
      · subst hk
        simp [hfind, List.find?, lookup_dictInsert]
      · have hkb : (c.name == k) = false := by simpa using hk
        have hknc : ¬k = c.name := fun hh => hk hh.symm
        simp [hfind, List.find?, hkb, lookup_dictInsert, hknc]

theorem getValue_keys_dictInsert (a : List (String × ToolValue)) (k : String)
    (v : ToolValue) :
    (dictInsert a k v).map Prod.fst
      = if k ∈ a.map Prod.fst then a.map Prod.fst else a.map Prod.fst ++ [k] := by
  induction a with
  | nil => simp [dictInsert]
  | cons kv rest ih =>
    obtain ⟨k0, v0⟩ := kv
    by_cases h : k0 = k
    · subst h
      simp [dictInsert]
    · have hkk : ¬k = k0 := fun hh => h hh.symm
      simp only [dictInsert, (show (k0 == k) = false by simpa using h)]
      simp only [Bool.false_eq_true, if_false, List.map_cons, ih]
      by_cases hm : k ∈ rest.map Prod.fst
      · simp [hm, hkk]
      · simp [hm, hkk]

theorem keys_nodup_dictInsert (a : List (String × ToolValue)) (k : String)
    (v : ToolValue) (h : (a.map Prod.fst).Nodup) :
    ((dictInsert a k v).map Prod.fst).Nodup := by
  rw [getValue_keys_dictInsert]
  by_cases hm : k ∈ a.map Prod.fst
  · simpa [hm] using h
  · simp only [hm, if_false]
    rw [List.nodup_append]
    exact ⟨h, List.nodup_singleton k, by simpa [List.disjoint_singleton] using hm⟩

theorem resultsFold_keys_nodup (g : ToolCall → ToolValue) :
    ∀ (calls : List ToolCall) (acc : List (String × ToolValue)),
    (acc.map Prod.fst).Nodup →
    ((calls.foldl (fun a c => dictInsert a c.name (g c)) acc).map Prod.fst).Nodup := by
  intro calls
  induction calls with
  | nil => intro acc h; simpa using h
  | cons c rest ih =>
    intro acc h
    simp only [List.foldl_cons]
    exact ih _ (keys_nodup_dictInsert acc c.name (g c) h)

theorem filter_key_eq_nil (m : List (String × ToolValue)) (n : String)
    (h : n ∉ m.map Prod.fst) : m.filter (fun kv => kv.1 == n) = [] := by
  rw [List.filter_eq_nil_iff]
  intro kv hkv
  simp only [beq_iff_eq]
  intro hkn
  exact h (by simpa [hkn] using List.mem_map_of_mem Prod.fst hkv)

theorem count_key_one_of_nodup (m : List (String × ToolValue))
    (hnd : (m.map Prod.fst).Nodup) (n : String) (v : ToolValue)
    (hl : List.lookup n m = some v) :
    (m.filter (fun kv => kv.1 == n)).length = 1 := by
  induction m with
  | nil => simp [List.lookup] at hl
  | cons kv rest ih =>
    obtain ⟨k0, v0⟩ := kv
    simp only [List.map_cons, List.nodup_cons] at hnd
    by_cases h : n = k0
    · subst h
      have : rest.filter (fun kv => kv.1 == n) = [] :=
        filter_key_eq_nil rest n hnd.1
      simp [List.filter_cons, this]
    · have hb : (n == k0) = false := by simpa using h
      have hb2 : (k0 == n) = false := by simpa using fun hh => h hh.symm
      rw [List.lookup, hb] at hl
      simp only [List.filter_cons, hb2, Bool.false_eq_true, if_false]
      exact ih hnd.2 hl

/-- C7: a batch containing an invocation whose tool name is missing from
the registry records a per-tool error for that name, does not abort,
executes every other invocation, and the final map holds the other
invocations' results alongside the missing-tool error entry (assuming no
other invocation raises during execution, which would abort the batch, and
distinct tool names, since the map is keyed by name). -/
theorem c7_missing_tool_continues (registry : Registry) (formatters : Formatters)
    (calls : List ToolCall) (c : ToolCall)
    (hok : ∀ cc ∈ calls, noExecFailure registry cc = true)
    (hnodup : (calls.map ToolCall.name).Nodup)
    (hc : c ∈ calls) (hmiss : registry c.name = none) :
    ∃ m, execute_tools_sequentially registry formatters calls
        = (TxState.committed, Except.ok m, attemptsOf registry calls)
      ∧ List.lookup c.name m = some (.errorPayload (missingToolMsg c.name))
      ∧ ∀ c2 ∈ calls,
          List.lookup c2.name m = some (stepValue registry formatters c2) := by
  refine ⟨resultsMap registry formatters calls, ?_, ?_, ?_⟩
  · unfold execute_tools_sequentially
    rw [execLoop_all_ok registry formatters calls hok]
  · have hstep : stepValue registry formatters c
        = .errorPayload (missingToolMsg c.name) := by
      simp [stepValue, hmiss]
    rw [← hstep]
    have hlast : ∀ c2 ∈ calls,
        List.lookup c2.name (resultsMap registry formatters calls)
          = some (stepValue registry formatters c2) := by
      intro c2 hc2
      have hsome : (calls.reverse.find? (fun x => x.name == c2.name)).isSome := by
        rw [List.find?_isSome]
        exact ⟨c2, by simpa using hc2, by simp⟩
      obtain ⟨x, hx⟩ := Option.isSome_iff_exists.mp hsome
      have hxnm : x.name = c2.name := by simpa using List.find?_some hx
      have hxmem : x ∈ calls := by
        have := List.mem_of_find?_eq_some hx
        simpa using this
      have hxc2 : x = c2 :=
        List.inj_on_of_nodup_map hnodup hxmem hc2 hxnm
      rw [resultsMap, lookup_resultsFold, hx, hxc2]
    exact hlast c hc
  · intro c2 hc2
    have hsome : (calls.reverse.find? (fun x => x.name == c2.name)).isSome := by
      rw [List.find?_isSome]
      exact ⟨c2, by simpa using hc2, by simp⟩
    obtain ⟨x, hx⟩ := Option.isSome_iff_exists.mp hsome
    have hxnm : x.name = c2.name := by simpa using List.find?_some hx
    have hxmem : x ∈ calls := by
      have := List.mem_of_find?_eq_some hx
      simpa using this
    have hxc2 : x = c2 :=
      List.inj_on_of_nodup_map hnodup hxmem hc2 hxnm
    rw [resultsMap, lookup_resultsFold, hx, hxc2]

/-- C7 witness: a batch with a missing tool between two present ones
commits, keeps all three entries, and pairs the missing name with its
error payload. -/
theorem c7_witness :
    ∃ m, execute_tools_sequentially demoRegistry demoFormatters
        [⟨"history", "a"⟩, ⟨"nosuch", "b"⟩]
        = (TxState.committed, Except.ok m, ["history"])
      ∧ List.lookup "nosuch" m
          = some (.errorPayload (missingToolMsg "nosuch"))
      ∧ List.lookup "history" m = some (.raw "corpus") := by
  obtain ⟨m, h1, h2, h3⟩ := c7_missing_tool_continues demoRegistry demoFormatters
    [⟨"history", "a"⟩, ⟨"nosuch", "b"⟩] ⟨"nosuch", "b"⟩
    (by decide) (by decide) (by simp) rfl
  exact ⟨m, h1, h2, h3 ⟨"history", "a"⟩ (by simp)⟩

/-- C10: with two or more invocations sharing a tool name (and no
execution failure, so a map is returned), the final map has exactly one
entry for that name and it holds the result of the last such invocation
processed; the earlier ones are overwritten. -/
theorem c10_duplicate_names_last_wins (registry : Registry)
    (formatters : Formatters) (calls : List ToolCall) (n : String)
    (hok : ∀ cc ∈ calls, noExecFailure registry cc = true)
    (hdup : 2 ≤ (calls.filter (fun c => c.name == n)).length) :
    ∃ m c, execute_tools_sequentially registry formatters calls
        = (TxState.committed, Except.ok m, attemptsOf registry calls)
      ∧ calls.reverse.find? (fun c => c.name == n) = some c
      ∧ List.lookup n m = some (stepValue registry formatters c)
      ∧ (m.filter (fun kv => kv.1 == n)).length = 1 := by
  have hne : calls.filter (fun c => c.name == n) ≠ [] := by
    intro h
    rw [h] at hdup
    simp at hdup
  obtain ⟨x, hx⟩ := List.exists_mem_of_ne_nil _ hne
  have hxc : x ∈ calls := (List.mem_filter.mp hx).1
  have hxn : (x.name == n) = true := (List.mem_filter.mp hx).2
  have hsome : (calls.reverse.find? (fun c => c.name == n)).isSome := by
    rw [List.find?_isSome]
    exact ⟨x, by simpa using hxc, hxn⟩
  obtain ⟨c, hc⟩ := Option.isSome_iff_exists.mp hsome
  have hlookup : List.lookup n (resultsMap registry formatters calls)
      = some (stepValue registry formatters c) := by
    rw [resultsMap, lookup_resultsFold, hc]
  refine ⟨resultsMap registry formatters calls, c, ?_, hc, hlookup, ?_⟩
  · unfold execute_tools_sequentially
    rw [execLoop_all_ok registry formatters calls hok]
  · exact count_key_one_of_nodup _ (resultsFold_keys_nodup _ calls [] (by simp))
      n _ hlookup

/-- C10 witness: two invocations named history; the map keeps one entry,
holding the second invocation's result. -/
theorem c10_witness :
    ∃ m c, execute_tools_sequentially demoRegistry demoFormatters
        [⟨"history", "first"⟩, ⟨"history", "second"⟩]
        = (TxState.committed, Except.ok m, ["history", "history"])
      ∧ ([⟨"history", "first"⟩, ⟨"history", "second"⟩] : List ToolCall).reverse.find?
            (fun c => c.name == "history") = some c
      ∧ List.lookup "history" m = some (stepValue demoRegistry demoFormatters c)
      ∧ (m.filter (fun kv => kv.1 == "history")).length = 1 :=
  c10_duplicate_names_last_wins demoRegistry demoFormatters
    [⟨"history", "first"⟩, ⟨"history", "second"⟩] "history"
    (by decide) (by decide)

/-! ## Idempotence of the text normalizer

Strategy: every character of a normalized string is fixed by the
per-character stages (case mapping, decomposition, mark and punctuation
filters, sigma conversion), and the whitespace of a normalized string is
canonical (no edge whitespace, every whitespace character is a single
space with non-space neighbours), so a second pass is the identity.
-/

/-- A character that every per-character stage of the pipeline fixes. -/
def CharOK (c : Char) : Prop :=
  pyLowerChar c = c ∧ nfdChar c = [c] ∧ isMn c = false ∧ c ≠ 'ς'
    ∧ isPunct c = false

instance (c : Char) : Decidable (CharOK c) := by
  unfold CharOK
  infer_instance

def headNonSpace : List Char → Bool
  | [] => true
  | c :: _ => !isSpace c

def lastNonSpace : List Char → Bool
  | [] => true
  | [c] => !isSpace c
  | _ :: rest => lastNonSpace rest

/-- Every whitespace character in the list is a single space followed by a
non-space character (or the end). -/
def goodWs : List Char → Bool
  | [] => true
  | c :: rest =>
    (if isSpace c then c == ' ' && headNonSpace rest else true) && goodWs rest

/-- Canonical whitespace shape of a normalized string. -/
def wsCanon (l : List Char) : Prop :=
  headNonSpace l = true ∧ lastNonSpace l = true ∧ goodWs l = true

theorem composePairs_mark : ∀ p ∈ composePairs, isMn p.1.2 = true := by decide

theorem lowerPairs_fixed : ∀ p ∈ lowerPairs, pyLowerChar p.2 = p.2 := by decide

theorem nfdPairs_lower_fixed :
    ∀ p ∈ nfdPairs, pyLowerChar p.1 = p.1 → ∀ c ∈ p.2, pyLowerChar c = c := by
  decide

theorem nfdPairs_stable : ∀ p ∈ nfdPairs, ∀ c ∈ p.2, nfdChar c = [c] := by decide

theorem composePair_mark (a b : Char) (c : Char) (h : composePair a b = some c) :
    isMn b = true := by
  unfold composePair at h
  cases hf : composePairs.find? (fun p => p.1.1 == a && p.1.2 == b) with
  | none => rw [hf] at h; exact absurd h (by simp)
  | some p =>
    have hmem := List.mem_of_find?_eq_some hf
    have hpred := List.find?_some hf
    have hb : p.1.2 = b := by
      have := (Bool.and_eq_true _ _).mp hpred
      exact beq_iff_eq.mp this.2
    rw [← hb]
    exact composePairs_mark p hmem

theorem pyLowerChar_idem (c : Char) : pyLowerChar (pyLowerChar c) = pyLowerChar c := by
  unfold pyLowerChar
  cases hf : lowerPairs.find? (fun p => p.1 == c) with
  | none => simp [hf]
  | some p =>
    have := lowerPairs_fixed p (List.mem_of_find?_eq_some hf)
    simpa [pyLowerChar] using this

theorem lower_nfd_fixed (f : Char) :
    ∀ d ∈ nfdChar (pyLowerChar f), pyLowerChar d = d := by
  intro d hd
  unfold nfdChar at hd
  cases hf : nfdPairs.find? (fun p => p.1 == pyLowerChar f) with
  | none =>
    rw [hf] at hd
    simp at hd
    subst hd
    exact pyLowerChar_idem f
  | some p =>
    rw [hf] at hd
    simp at hd
    have hmem := List.mem_of_find?_eq_some hf
    have hkey : p.1 = pyLowerChar f := by
      have := List.find?_some hf
      simpa using this
    have hfix : pyLowerChar p.1 = p.1 := by
      rw [hkey]
      exact pyLowerChar_idem f
    exact nfdPairs_lower_fixed p hmem hfix d hd

theorem nfd_stable (e : Char) : ∀ d ∈ nfdChar e, nfdChar d = [d] := by
  intro d hd
  unfold nfdChar at hd
  cases hf : nfdPairs.find? (fun p => p.1 == e) with
  | none =>
    rw [hf] at hd
    simp at hd
    subst hd
    simp [nfdChar, hf]
  | some p =>
    rw [hf] at hd
    simp at hd
    exact nfdPairs_stable p (List.mem_of_find?_eq_some hf) d hd

theorem mem_collapseWsAux (cs : List Char) :
    ∀ (b : Bool) (c : Char), c ∈ collapseWsAux b cs → c = ' ' ∨ c ∈ cs := by
  induction cs with
  | nil => intro b c h; simp [collapseWsAux] at h
  | cons x rest ih =>
    intro b c h
    unfold collapseWsAux at h
    by_cases hx : isSpace x = true
    · rw [if_pos hx] at h
      cases b with
      | true =>
        rw [if_pos rfl] at h
        rcases ih true c h with h1 | h1
        · exact Or.inl h1
        · exact Or.inr (List.mem_cons_of_mem x h1)
      | false =>
        rw [if_neg (by simp)] at h
        rcases List.mem_cons.mp h with h1 | h1
        · exact Or.inl h1
        · rcases ih true c h1 with h2 | h2
          · exact Or.inl h2
          · exact Or.inr (List.mem_cons_of_mem x h2)
    · rw [if_neg hx] at h
      rcases List.mem_cons.mp h with h1 | h1
      · exact Or.inr (h1 ▸ List.mem_cons_self x rest)
      · rcases ih false c h1 with h2 | h2
        · exact Or.inl h2
        · exact Or.inr (List.mem_cons_of_mem x h2)

theorem mem_stripWsLeft (cs : List Char) (c : Char) (h : c ∈ stripWsLeft cs) :
    c ∈ cs := by
  induction cs with
  | nil => simpa [stripWsLeft] using h
  | cons x rest ih =>
    unfold stripWsLeft at h
    by_cases hx : isSpace x = true
    · rw [if_pos hx] at h
      exact List.mem_cons_of_mem x (ih h)
    · rw [if_neg hx] at h
      exact h

theorem mem_stripWsRight (cs : List Char) (c : Char) (h : c ∈ stripWsRight cs) :
    c ∈ cs := by
  induction cs with
  | nil => simpa [stripWsRight] using h
  | cons x rest ih =>
    unfold stripWsRight at h
    cases hr : stripWsRight rest with
    | nil =>
      rw [hr] at h
      by_cases hx : isSpace x = true
      · rw [if_pos hx] at h
        simp at h
      · rw [if_neg hx] at h
        simp at h
        exact h ▸ List.mem_cons_self x rest
    | cons y ys =>
      rw [hr] at h
      rcases List.mem_cons.mp h with h1 | h1
      · exact h1 ▸ List.mem_cons_self x rest
      · exact List.mem_cons_of_mem x (ih (by rw [hr]; exact h1))

theorem lastNonSpace_cons (c : Char) (rest : List Char) (h : rest ≠ []) :
    lastNonSpace (c :: rest) = lastNonSpace rest := by
  cases rest with
  | nil => exact absurd rfl h
  | cons y ys => rfl

theorem headNonSpace_stripWsLeft (cs : List Char) :
    headNonSpace (stripWsLeft cs) = true := by
  induction cs with
  | nil => rfl
  | cons x rest ih =>
    unfold stripWsLeft
    by_cases hx : isSpace x = true
    · rw [if_pos hx]; exact ih
    · rw [if_neg hx]
      simp only [headNonSpace, Bool.not_eq_true] at hx ⊢
      simp [hx]

theorem lastNonSpace_stripWsRight (cs : List Char) :
    lastNonSpace (stripWsRight cs) = true := by
  induction cs with
  | nil => rfl
  | cons x rest ih =>
    unfold stripWsRight
    cases hr : stripWsRight rest with
    | nil =>
      by_cases hx : isSpace x = true
      · rw [if_pos hx]; rfl
      · rw [if_neg hx]
        simp only [lastNonSpace, Bool.not_eq_true] at hx ⊢
        simp [hx]
    | cons y ys =>
      rw [lastNonSpace_cons x (y :: ys) (by simp), ← hr]
      exact ih

theorem headNonSpace_stripWsRight (cs : List Char) (h : headNonSpace cs = true) :
    headNonSpace (stripWsRight cs) = true := by
  cases cs with
  | nil => rfl
  | cons x rest =>
    simp only [headNonSpace] at h
    unfold stripWsRight
    cases hr : stripWsRight rest with
    | nil =>
      rw [if_neg (by simpa using h)]
      simpa [headNonSpace] using h
    | cons y ys => simpa [headNonSpace] using h

theorem headNonSpace_collapse (l : List Char) (h : headNonSpace l = true) :
    headNonSpace (collapseWsAux false l) = true := by
  cases l with
  | nil => rfl
  | cons x rest =>
    simp only [headNonSpace] at h
    unfold collapseWsAux
    rw [if_neg (by simpa using h)]
    simpa [headNonSpace] using h

theorem headNonSpace_collapse_true (l : List Char) :
    headNonSpace (collapseWsAux true l) = true := by
  induction l with
  | nil => rfl
  | cons x rest ih =>
    unfold collapseWsAux
    by_cases hx : isSpace x = true
    · rw [if_pos hx, if_pos rfl]; exact ih
    · rw [if_neg hx]
      simp only [headNonSpace, Bool.not_eq_true] at hx ⊢
      simp [hx]

theorem collapse_ne_nil (l : List Char) :
    ∀ b, lastNonSpace l = true → l ≠ [] → collapseWsAux b l ≠ [] := by
  induction l with
  | nil => intro b _ h; exact absurd rfl h
  | cons x rest ih =>
    intro b hlast _
    unfold collapseWsAux
    by_cases hx : isSpace x = true
    · have hrest_ne : rest ≠ [] := by
        intro hre
        subst hre
        simp [lastNonSpace, hx] at hlast
      have hlast' : lastNonSpace rest = true := by
        rw [lastNonSpace_cons x rest hrest_ne] at hlast
        exact hlast
      rw [if_pos hx]
      cases b with
      | true =>
        rw [if_pos rfl]
        exact ih true hlast' hrest_ne
      | false =>
        rw [if_neg (by simp)]
        simp
    · rw [if_neg hx]
      simp

theorem collapse_canon (l : List Char) :
    ∀ b, lastNonSpace l = true →
    goodWs (collapseWsAux b l) = true ∧ lastNonSpace (collapseWsAux b l) = true := by
  induction l with
  | nil => intro b _; exact ⟨rfl, rfl⟩
  | cons x rest ih =>
    intro b hlast
    by_cases hx : isSpace x = true
    · have hrest_ne : rest ≠ [] := by
        intro hre
        subst hre
        simp [lastNonSpace, hx] at hlast
      have hlast' : lastNonSpace rest = true := by
        rw [lastNonSpace_cons x rest hrest_ne] at hlast
        exact hlast
      have hih := ih true hlast'
      have hne := collapse_ne_nil rest true hlast' hrest_ne
      cases b with
      | true =>
        unfold collapseWsAux
        rw [if_pos hx, if_pos rfl]
        exact hih
      | false =>
        unfold collapseWsAux
        rw [if_pos hx, if_neg (by simp)]
        refine ⟨?_, ?_⟩
        · simp [goodWs, headNonSpace_collapse_true rest, hih.1,
            (show isSpace ' ' = true by decide)]
        · rw [lastNonSpace_cons _ _ hne]
          exact hih.2
    · unfold collapseWsAux
      rw [if_neg hx]
      by_cases hre : rest = []
      · subst hre
        have hxb : isSpace x = false := by simpa using hx
        exact ⟨by simp [goodWs, collapseWsAux, hxb], by
          simp [collapseWsAux, lastNonSpace, hxb]⟩
      · have hlast' : lastNonSpace rest = true := by
          rw [lastNonSpace_cons x rest hre] at hlast
          exact hlast
        have hih := ih false hlast'
        have hne := collapse_ne_nil rest false hlast' hre
        refine ⟨?_, ?_⟩
        · simp [goodWs, hx, hih.1]
        · rw [lastNonSpace_cons _ _ hne]
          exact hih.2

theorem stripWsLeft_id (l : List Char) (h : headNonSpace l = true) :
    stripWsLeft l = l := by
  cases l with
  | nil => rfl
  | cons x rest =>
    simp only [headNonSpace] at h
    unfold stripWsLeft
    rw [if_neg (by simpa using h)]

theorem stripWsRight_id (l : List Char) (h : lastNonSpace l = true) :
    stripWsRight l = l := by
  induction l with
  | nil => rfl
  | cons x rest ih =>
    cases rest with
    | nil =>
      have hx : isSpace x = false := by
        simpa [lastNonSpace] using h
      simp [stripWsRight, hx]
    | cons y ys =>
      have hlast' : lastNonSpace (y :: ys) = true := by
        rw [lastNonSpace_cons x (y :: ys) (by simp)] at h
        exact h
      unfold stripWsRight
      rw [ih hlast']

theorem collapse_id (l : List Char) :
    ∀ b, goodWs l = true → (b = true → headNonSpace l = true) →
    collapseWsAux b l = l := by
  induction l with
  | nil => intro b _ _; rfl
  | cons x rest ih =>
    intro b hg hb
    unfold collapseWsAux
    by_cases hx : isSpace x = true
    · have hbf : b = false := by
        cases b with
        | true =>
          have := hb rfl
          simp only [headNonSpace] at this
          simp [hx] at this
        | false => rfl
      subst hbf
      rw [if_pos hx, if_neg (by simp)]
      have hcomp : x = ' ' ∧ headNonSpace rest = true ∧ goodWs rest = true := by
        have h2 := hg
        simp [goodWs, hx] at h2
        exact ⟨h2.1.1, h2.1.2, h2.2⟩
      obtain ⟨hx', hhead, hgrest⟩ := hcomp
      rw [ih true hgrest (fun _ => hhead), hx']
    · rw [if_neg hx]
      have hgrest : goodWs rest = true := by
        have := hg
        simp only [goodWs, hx] at this
        simpa using this
      rw [ih false hgrest (by simp)]

theorem nfcCompose_fixed (l : List Char) (h : ∀ c ∈ l, isMn c = false) :
    nfcCompose l = l := by
  induction l with
  | nil => simp [nfcCompose]
  | cons a tail ih =>
    cases tail with
    | nil => simp [nfcCompose]
    | cons b rest =>
      have hb : isMn b = false := h b (by simp)
      cases hcp : composePair a b with
      | some c =>
        rw [composePair_mark a b c hcp] at hb
        exact absurd hb (by simp)
      | none =>
        have htail : ∀ c ∈ b :: rest, isMn c = false :=
          fun c hc => h c (List.mem_cons_of_mem a hc)
        simp only [nfcCompose, hcp]
        rw [ih htail]

theorem map_fixed (f : Char → Char) (l : List Char) (h : ∀ c ∈ l, f c = c) :
    l.map f = l := by
  induction l with
  | nil => rfl
  | cons x rest ih =>
    rw [List.map_cons, h x (List.mem_cons_self x rest),
      ih (fun c hc => h c (List.mem_cons_of_mem x hc))]

theorem flatMap_fixed (l : List Char) (h : ∀ c ∈ l, nfdChar c = [c]) :
    l.flatMap nfdChar = l := by
  induction l with
  | nil => rfl
  | cons x rest ih =>
    rw [List.flatMap_cons, h x (List.mem_cons_self x rest),
      ih (fun c hc => h c (List.mem_cons_of_mem x hc))]
    rfl

theorem filter_fixed (p : Char → Bool) (l : List Char) (h : ∀ c ∈ l, p c = true) :
    l.filter p = l :=
  List.filter_eq_self.mpr h

/-- Every character of a normalized string is fixed by every per-character
stage of the pipeline. -/
theorem pyNormalize_chars_ok (cs : List Char) : ∀ c ∈ pyNormalize cs, CharOK c := by
  intro c hc
  simp only [pyNormalize] at hc
  rcases mem_collapseWsAux _ false c hc with h1 | h1
  · subst h1; decide
  · have h2 := mem_stripWsLeft _ c (mem_stripWsRight _ c h1)
    obtain ⟨h4, hpunct⟩ := List.mem_filter.mp h2
    obtain ⟨d, hd, hcd⟩ := List.mem_map.mp h4
    obtain ⟨hd5, hmn⟩ := List.mem_filter.mp hd
    obtain ⟨e, he, hde⟩ := List.mem_flatMap.mp hd5
    obtain ⟨f, hf, hef⟩ := List.mem_map.mp he
    subst hef
    subst hcd
    refine ⟨?_, ?_, ?_, ?_, by simpa using hpunct⟩
    · unfold sigmaFix
      by_cases hds : d = 'ς'
      · rw [if_pos hds]; decide
      · rw [if_neg hds]
        exact lower_nfd_fixed f d hde
    · unfold sigmaFix
      by_cases hds : d = 'ς'
      · rw [if_pos hds]; decide
      · rw [if_neg hds]
        exact nfd_stable _ d hde
    · unfold sigmaFix
      by_cases hds : d = 'ς'
      · rw [if_pos hds]; decide
      · rw [if_neg hds]
        simpa using hmn
    · unfold sigmaFix
      by_cases hds : d = 'ς'
      · rw [if_pos hds]; decide
      · rw [if_neg hds]
        exact hds

/-- The whitespace of a normalized string is canonical. -/
theorem pyNormalize_wsCanon (cs : List Char) : wsCanon (pyNormalize cs) := by
  simp only [pyNormalize, wsCanon, collapseWs, stripWs]
  refine ⟨?_, ?_, ?_⟩
  · exact headNonSpace_collapse _
      (headNonSpace_stripWsRight _ (headNonSpace_stripWsLeft _))
  · exact (collapse_canon _ false (lastNonSpace_stripWsRight _)).2
  · exact (collapse_canon _ false (lastNonSpace_stripWsRight _)).1

/-- The pipeline is the identity on a string whose characters are all
stage-fixed and whose whitespace is canonical. -/
theorem pyNormalize_fixed (r : List Char) (hok : ∀ c ∈ r, CharOK c)
    (hws : wsCanon r) : pyNormalize r = r := by
  obtain ⟨hhead, hlast, hgood⟩ := hws
  have h1 : nfcCompose r = r := nfcCompose_fixed r (fun c hc => (hok c hc).2.2.1)
  have h2 : r.map pyLowerChar = r := map_fixed _ r (fun c hc => (hok c hc).1)
  have h3 : r.flatMap nfdChar = r := flatMap_fixed r (fun c hc => (hok c hc).2.1)
  have h4 : r.filter (fun c => !(isMn c)) = r :=
    filter_fixed _ r (fun c hc => by simp [(hok c hc).2.2.1])
  have h5 : r.map sigmaFix = r := map_fixed _ r (fun c hc => by
    unfold sigmaFix
    rw [if_neg (hok c hc).2.2.2.1])
  have h6 : r.filter (fun c => !(isPunct c)) = r :=
    filter_fixed _ r (fun c hc => by simp [(hok c hc).2.2.2.2])
  simp only [pyNormalize]
  rw [h1, h2, h3, h4, h5, h6]
  simp only [stripWs, collapseWs]
  rw [stripWsLeft_id r hhead, stripWsRight_id r hlast,
    collapse_id r false hgood (by simp)]

/-- C9: normalize_text is idempotent: normalizing an already-normalized
string returns it unchanged (for None and the empty string as well). -/
theorem c9_normalize_idempotent (t : Option String) :
    normalize_text (normalize_text t) = normalize_text t := by
  cases t with
  | none => rfl
  | some s =>
    by_cases hs : s = ""
    · simp [normalize_text, hs]
    · simp only [normalize_text, if_neg hs]
      by_cases hr : String.mk (pyNormalize s.data) = ""
      · rw [if_pos hr, hr]
      · rw [if_neg hr]
        rw [pyNormalize_fixed _ (pyNormalize_chars_ok s.data)
          (pyNormalize_wsCanon s.data)]

end ChatbotApi
